import Mathlib

/-!
# Verification of the tracer-web task/agent assignment core

A shallow embedding of the tracer-web REST handlers that manage projects,
tasks, agents and planning sessions, together with proofs about the
assignment/consistency rules, the statistics computation, pagination, and
task creation.

Modelling conventions:

* MongoDB ObjectIds are modelled as `Nat`.  The routes' 24-hex-character
  format check and JSON-truthiness checks on the raw id strings happen
  before any database access; every claim below concerns the behaviour
  from the database lookup onwards, so operations take ids directly.
* Each collection is a `List` of documents; `findById` is `List.find?` on
  the `id` field, `findByIdAndUpdate` maps the update over the documents
  with the matching id (ids are unique in a real database; where a proof
  needs that we assume `wfIds`), `findByIdAndDelete` filters it out, and
  `updateMany` maps a conditional update.
* Request bodies are records of `Option` fields: `none` models an absent
  (or, for the string fields guarded by JS truthiness, empty) field, and
  for fields that distinguish `null` from absent the type is
  `Option (Option _)`.
* Each handler returns the HTTP status code it responds with, paired with
  the database after the operation.  Numbers that the code manipulates as
  JS floats (hours, efficiency, rates) are modelled as `ℚ`.
-/

namespace TracerWeb

/-- Task status enum from `models/Task.ts`. -/
inductive TaskStatus where
  | pending
  | inProgress
  | completed
  | blocked
deriving DecidableEq, Repr

/-- Task priority enum from `models/Task.ts`. -/
inductive TaskPriority where
  | low
  | medium
  | high
  | urgent
deriving DecidableEq, Repr

/-- Agent status enum from `models/Agent.ts`. -/
inductive AgentStatus where
  | idle
  | working
  | busy
  | suspended
deriving DecidableEq, Repr

/-- Agent type enum from `models/Agent.ts`. -/
inductive AgentType where
  | frontend
  | backend
  | fullstack
  | devops
  | ai
deriving DecidableEq, Repr

/-- Project status enum from `models/Project.ts`. -/
inductive ProjectStatus where
  | active
  | completed
  | paused
  | archived
deriving DecidableEq, Repr

/-- Planning-session status enum (`draft`/`active`/`completed`). -/
inductive SessionStatus where
  | draft
  | active
  | completed
deriving DecidableEq, Repr

/-- A Task document (`models/Task.ts`).  `createdAt` stands for the
`timestamps: true` creation time (a number, used only for sorting). -/
structure Task where
  id : Nat
  title : String
  description : String
  status : TaskStatus
  priority : TaskPriority
  agentId : Option Nat
  projectId : Nat
  dependencies : List Nat
  estimatedHours : Option ℚ
  actualHours : Option ℚ
  createdAt : Nat
deriving DecidableEq, Repr

/-- An Agent document (`models/Agent.ts`). -/
structure Agent where
  id : Nat
  name : String
  type : AgentType
  status : AgentStatus
  currentTaskId : Option Nat
  projectId : Nat
  capabilities : List String
  efficiency : ℚ
deriving DecidableEq, Repr

/-- A Project document (`models/Project.ts`). -/
structure Project where
  id : Nat
  name : String
  description : String
  status : ProjectStatus
  ownerId : Option Nat
  createdAt : Nat
deriving DecidableEq, Repr

/-- A PlanningSession document (fields used by the planning-sessions
routes: project reference, status, referenced task/agent ids). -/
structure PlanningSession where
  id : Nat
  name : String
  description : String
  projectId : Nat
  status : SessionStatus
  tasks : List Nat
  agents : List Nat
  createdAt : Nat
deriving DecidableEq, Repr

/-- The document database: one collection per model. -/
structure DB where
  tasks : List Task
  agents : List Agent
  projects : List Project
  sessions : List PlanningSession
deriving DecidableEq, Repr

/-- Whitespace trimming as performed by JS `String.prototype.trim` and
the schemas' `trim: true`: strip leading and trailing whitespace. -/
def jsTrim (s : String) : String :=
  ⟨((s.data.dropWhile Char.isWhitespace).reverse.dropWhile
      Char.isWhitespace).reverse⟩

/-- Model of `Task.findById`. -/
def findTask (db : DB) (i : Nat) : Option Task :=
  db.tasks.find? fun t => decide (t.id = i)

/-- Model of `Agent.findById`. -/
def findAgent (db : DB) (i : Nat) : Option Agent :=
  db.agents.find? fun a => decide (a.id = i)

/-!
## POST /api/tasks/assign and DELETE /api/tasks/assign
(`app/api/tasks/assign/route.ts`)
-/

/-- Route `POST /api/tasks/assign` (`assign/route.ts`, `POST`): looks up the
task (404 if absent) and the agent (404 if absent); rejects with 400 when
the agent is `busy` or `suspended` or when the task already has an agent
(truthy `task.agentId`); otherwise sets `task.agentId`/`task.status :=
in-progress` and `agent.currentTaskId`/`agent.status := working`. -/
def assignPOST (db : DB) (taskId agentId : Nat) : Nat × DB :=
  match findTask db taskId with
  | none => (404, db)
  | some task =>
    match findAgent db agentId with
    | none => (404, db)
    | some agent =>
      if agent.status = AgentStatus.busy ∨ agent.status = AgentStatus.suspended then
        (400, db)
      else if task.agentId.isSome then
        (400, db)
      else
        (200, { db with
          tasks := db.tasks.map fun t =>
            if t.id = taskId then
              { t with agentId := some agentId, status := TaskStatus.inProgress }
            else t,
          agents := db.agents.map fun a =>
            if a.id = agentId then
              { a with currentTaskId := some taskId, status := AgentStatus.working }
            else a })

/-- Route `DELETE /api/tasks/assign` (`assign/route.ts`, `DELETE`): looks up the
task (404 if absent); rejects with 400 when `task.agentId?.toString() !==
agentId`; otherwise clears `task.agentId`/resets `task.status := pending`
and clears `agent.currentTaskId`/resets `agent.status := idle`. -/
def unassignDELETE (db : DB) (taskId agentId : Nat) : Nat × DB :=
  match findTask db taskId with
  | none => (404, db)
  | some task =>
    if task.agentId = some agentId then
      (200, { db with
        tasks := db.tasks.map fun t =>
          if t.id = taskId then
            { t with agentId := none, status := TaskStatus.pending }
          else t,
        agents := db.agents.map fun a =>
          if a.id = agentId then
            { a with currentTaskId := none, status := AgentStatus.idle }
          else a })
    else
      (400, db)

/-!
## The cross-entity consistency invariant (spec §3/§8)
-/

/-- A single task is consistent with the agents collection: whatever agent
it references must exist, point back at the task, and be `working`. -/
def taskAgentOk (agents : List Agent) (t : Task) : Prop :=
  ∀ aid, t.agentId = some aid →
    ∃ a ∈ agents, a.id = aid ∧ a.currentTaskId = some t.id ∧
      a.status = AgentStatus.working

instance (agents : List Agent) (t : Task) : Decidable (taskAgentOk agents t) :=
  match h : t.agentId with
  | none =>
      isTrue (by intro aid ha; rw [h] at ha; cases ha)
  | some aid0 =>
      decidable_of_iff
        (∃ a ∈ agents, a.id = aid0 ∧ a.currentTaskId = some t.id ∧
          a.status = AgentStatus.working)
        (by
          constructor
          · intro hex aid ha
            rw [h] at ha
            cases ha
            exact hex
          · intro hall
            exact hall aid0 h)

/-- Mutual-consistency invariant: every task's agent reference is backed
by an agent whose `currentTaskId` points back and whose status is
`working`. -/
def consistent (db : DB) : Prop :=
  ∀ t ∈ db.tasks, taskAgentOk db.agents t

instance (db : DB) : Decidable (consistent db) :=
  inferInstanceAs (Decidable (∀ t ∈ db.tasks, taskAgentOk db.agents t))

/-- Ids are unique in the tasks and agents collections (MongoDB `_id`
uniqueness). -/
def wfIds (db : DB) : Prop :=
  (db.tasks.map Task.id).Nodup ∧ (db.agents.map Agent.id).Nodup

instance (db : DB) : Decidable (wfIds db) :=
  inferInstanceAs (Decidable (_ ∧ _))

/-!
## Basic lookup lemmas
-/

theorem findTask_mem {db : DB} {i : Nat} {t : Task}
    (h : findTask db i = some t) : t ∈ db.tasks ∧ t.id = i := by
  refine ⟨List.mem_of_find?_eq_some h, ?_⟩
  have := List.find?_some h
  simpa using this

theorem findAgent_mem {db : DB} {i : Nat} {a : Agent}
    (h : findAgent db i = some a) : a ∈ db.agents ∧ a.id = i := by
  refine ⟨List.mem_of_find?_eq_some h, ?_⟩
  have := List.find?_some h
  simpa using this

/-!
## PUT /api/tasks/[id] and DELETE /api/tasks/[id]
(`app/api/tasks/[id]/route.ts`)
-/

/-- Body of `PUT /api/tasks/[id]`.  For `title`/`description`/`status`/
`priority` the route only applies truthy values (`...(title && ...)`), so
`none` models an absent, empty or null field; for `agentId`,
`dependencies`, `estimatedHours` and `actualHours` the route tests
`!== undefined` (or array truthiness), so `some none` models an explicit
`null`. -/
structure TaskPutBody where
  title : Option String := none
  description : Option String := none
  status : Option TaskStatus := none
  priority : Option TaskPriority := none
  agentId : Option (Option Nat) := none
  dependencies : Option (List Nat) := none
  estimatedHours : Option (Option ℚ) := none
  actualHours : Option (Option ℚ) := none
deriving DecidableEq, Repr

/-- The update document built by the PUT handler, applied to a task. -/
def applyTaskPut (b : TaskPutBody) (t : Task) : Task :=
  { t with
    title := match b.title with
      | some s => jsTrim s
      | none => t.title,
    description := match b.description with
      | some s => jsTrim s
      | none => t.description,
    status := match b.status with
      | some s => s
      | none => t.status,
    priority := match b.priority with
      | some p => p
      | none => t.priority,
    agentId := match b.agentId with
      | some v => v
      | none => t.agentId,
    dependencies := match b.dependencies with
      | some d => d
      | none => t.dependencies,
    estimatedHours := match b.estimatedHours with
      | some v => v
      | none => t.estimatedHours,
    actualHours := match b.actualHours with
      | some v => v
      | none => t.actualHours }

/-- Validator `maxlength` on an optional (trimmed) string path. -/
def strFieldOk : Option String → Nat → Prop
  | some s, n => (jsTrim s).length ≤ n
  | none, _ => True

instance (o : Option String) (n : Nat) : Decidable (strFieldOk o n) :=
  match o with
  | some s => inferInstanceAs (Decidable ((jsTrim s).length ≤ n))
  | none => inferInstanceAs (Decidable True)

/-- Validators `min: 0` and `max: 1000` on an optional hours path. -/
def hoursFieldOk : Option (Option ℚ) → Prop
  | some (some v) => 0 ≤ v ∧ v ≤ 1000
  | some none => True
  | none => True

instance (o : Option (Option ℚ)) : Decidable (hoursFieldOk o) :=
  match o with
  | some (some v) => inferInstanceAs (Decidable (0 ≤ v ∧ v ≤ 1000))
  | some none => inferInstanceAs (Decidable True)
  | none => inferInstanceAs (Decidable True)

/-- The schema validators that `runValidators: true` applies to the paths
set by the PUT body (`models/Task.ts`): `maxlength` on the trimmed title
and description, `min`/`max` on the hour fields.  Enum validity is
enforced by the body's types. -/
def taskPutValid (b : TaskPutBody) : Prop :=
  strFieldOk b.title 200 ∧ strFieldOk b.description 1000 ∧
    hoursFieldOk b.estimatedHours ∧ hoursFieldOk b.actualHours

instance (b : TaskPutBody) : Decidable (taskPutValid b) :=
  inferInstanceAs (Decidable (_ ∧ _ ∧ _ ∧ _))

/-- Route `PUT /api/tasks/[id]` (`tasks/[id]/route.ts`, `PUT`):
`findByIdAndUpdate` with `runValidators` (validation failure responds 400,
missing task 404); afterwards, if the updated task has an agent and status
`in-progress`, the agent's `currentTaskId`/`status` are pointed at the
task. -/
def taskPUT (db : DB) (taskId : Nat) (b : TaskPutBody) : Nat × DB :=
  if taskPutValid b then
    match findTask db taskId with
    | none => (404, db)
    | some t0 =>
      let updated := applyTaskPut b t0
      let db1 : DB := { db with
        tasks := db.tasks.map fun t =>
          if t.id = taskId then applyTaskPut b t else t }
      match updated.agentId with
      | some aid =>
        if updated.status = TaskStatus.inProgress then
          (200, { db1 with
            agents := db1.agents.map fun a =>
              if a.id = aid then
                { a with currentTaskId := some taskId, status := AgentStatus.working }
              else a })
        else (200, db1)
      | none => (200, db1)
  else (400, db)

/-- Route `DELETE /api/tasks/[id]` (`tasks/[id]/route.ts`, `DELETE`): 404 when
the task is absent; otherwise resets the referenced agent (if any) to
`idle`/no current task, pulls the task id out of every task's
`dependencies` (`updateMany` + `$pull`), and deletes the task. -/
def taskDELETE (db : DB) (taskId : Nat) : Nat × DB :=
  match findTask db taskId with
  | none => (404, db)
  | some task =>
    let agents1 := match task.agentId with
      | some aid =>
        db.agents.map fun a =>
          if a.id = aid then
            { a with currentTaskId := none, status := AgentStatus.idle }
          else a
      | none => db.agents
    let tasks1 := db.tasks.map fun t =>
      if taskId ∈ t.dependencies then
        { t with dependencies := t.dependencies.filter fun d => decide (¬ d = taskId) }
      else t
    (200, { db with
      tasks := tasks1.filter fun t => decide (¬ t.id = taskId),
      agents := agents1 })

/-!
## DELETE /api/agents/[id] (`app/api/agents/[id]/route.ts`)
-/

/-- Route `DELETE /api/agents/[id]` (`agents/[id]/route.ts`, `DELETE`): 404 when
the agent is absent; otherwise `updateMany({agentId}, {agentId: null,
status: 'pending'})` over the tasks, then deletes the agent. -/
def agentDELETE (db : DB) (agentId : Nat) : Nat × DB :=
  match findAgent db agentId with
  | none => (404, db)
  | some _ =>
    (200, { db with
      tasks := db.tasks.map fun t =>
        if t.agentId = some agentId then
          { t with agentId := none, status := TaskStatus.pending }
        else t,
      agents := db.agents.filter fun a => decide (¬ a.id = agentId) })

/-!
## POST /api/tasks (`app/api/tasks/route.ts`)
-/

/-- Body of `POST /api/tasks`.  `title`/`description` are the raw strings
(the route tests their truthiness itself); `projectId` is `none` when
absent/falsy; the remaining fields are optional. -/
structure TaskPostBody where
  title : String
  description : String
  status : Option TaskStatus := none
  priority : Option TaskPriority := none
  projectId : Option Nat := none
  agentId : Option Nat := none
  dependencies : Option (List Nat) := none
  estimatedHours : Option ℚ := none
deriving DecidableEq, Repr

/-- The task document built by the POST handler (`new Task({...})` with
the generated id `newId`): defaults `status || 'pending'`,
`priority || 'medium'`, `dependencies || []`, and the falsy coercion
`estimatedHours: estimatedHours || null` (so a requested `0` becomes
`null`).  The schema's `default: 0` fills `actualHours`, `trim: true`
trims the strings. -/
def postedTask (b : TaskPostBody) (newId : Nat) : Task :=
  { id := newId,
    title := jsTrim b.title,
    description := jsTrim b.description,
    status := b.status.getD TaskStatus.pending,
    priority := b.priority.getD TaskPriority.medium,
    agentId := b.agentId,
    projectId := b.projectId.getD 0,
    dependencies := b.dependencies.getD [],
    estimatedHours := match b.estimatedHours with
      | some v => if v = 0 then none else some v
      | none => none,
    actualHours := some 0,
    createdAt := newId }

/-- Schema validation run by `task.save()` (`models/Task.ts`): required
nonempty trimmed title/description, `maxlength`, and the 0–1000 bounds on
any present hour values. -/
def taskSaveValid (t : Task) : Prop :=
  ¬ t.title = "" ∧ t.title.length ≤ 200 ∧
  ¬ t.description = "" ∧ t.description.length ≤ 1000 ∧
  hoursFieldOk (some t.estimatedHours) ∧ hoursFieldOk (some t.actualHours)

instance (t : Task) : Decidable (taskSaveValid t) :=
  inferInstanceAs (Decidable (_ ∧ _ ∧ _ ∧ _ ∧ _ ∧ _))

/-- Route `POST /api/tasks` (`tasks/route.ts`, `POST`): 400 when `title`,
`description` or `projectId` is falsy; builds the document, runs schema
validation (failure responds 400), then the `pre('save')` hook rejects a
task whose `dependencies` include its own id (a plain `Error`, so the
route's catch-all responds 500); otherwise the task is inserted and the
route responds 201. -/
def tasksPOST (db : DB) (b : TaskPostBody) (newId : Nat) : Nat × DB :=
  if b.title = "" ∨ b.description = "" ∨ b.projectId = none then
    (400, db)
  else
    let task := postedTask b newId
    if ¬ taskSaveValid task then (400, db)
    else if newId ∈ task.dependencies then (500, db)
    else (201, { db with tasks := db.tasks ++ [task] })

/-!
## Dependency invariants claimed by the spec (§3)
-/

/-- No task depends on itself. -/
def noSelfDep (db : DB) : Prop :=
  ∀ t ∈ db.tasks, ¬ t.id ∈ t.dependencies

instance (db : DB) : Decidable (noSelfDep db) :=
  inferInstanceAs (Decidable (∀ t ∈ db.tasks, ¬ t.id ∈ t.dependencies))

/-- Every dependency id that resolves to a task resolves to a task of the
same project. -/
def depsSameProject (db : DB) : Prop :=
  ∀ t ∈ db.tasks, ∀ d ∈ t.dependencies, ∀ u ∈ db.tasks,
    u.id = d → u.projectId = t.projectId

instance (db : DB) : Decidable (depsSameProject db) :=
  inferInstanceAs (Decidable (∀ t ∈ db.tasks, ∀ d ∈ t.dependencies,
    ∀ u ∈ db.tasks, u.id = d → u.projectId = t.projectId))

/-!
## GET /api/projects/[id]/stats (`app/api/projects/[id]/stats/route.ts`)
-/

/-- The `taskStats` object computed by the stats route (lines 55–72):
counts by status and priority, hour sums (`|| 0` on missing hours), and
`completionRate = completed/total * 100` with `0` for an empty list. -/
structure TaskStats where
  total : Nat
  pendingCount : Nat
  inProgressCount : Nat
  completedCount : Nat
  blockedCount : Nat
  lowCount : Nat
  mediumCount : Nat
  highCount : Nat
  urgentCount : Nat
  totalEstimatedHours : ℚ
  totalActualHours : ℚ
  completionRate : ℚ
deriving DecidableEq, Repr

def taskStatsOf (tasks : List Task) : TaskStats :=
  { total := tasks.length,
    pendingCount := (tasks.filter fun t => decide (t.status = TaskStatus.pending)).length,
    inProgressCount := (tasks.filter fun t => decide (t.status = TaskStatus.inProgress)).length,
    completedCount := (tasks.filter fun t => decide (t.status = TaskStatus.completed)).length,
    blockedCount := (tasks.filter fun t => decide (t.status = TaskStatus.blocked)).length,
    lowCount := (tasks.filter fun t => decide (t.priority = TaskPriority.low)).length,
    mediumCount := (tasks.filter fun t => decide (t.priority = TaskPriority.medium)).length,
    highCount := (tasks.filter fun t => decide (t.priority = TaskPriority.high)).length,
    urgentCount := (tasks.filter fun t => decide (t.priority = TaskPriority.urgent)).length,
    totalEstimatedHours := tasks.foldl (fun s t => s + t.estimatedHours.getD 0) 0,
    totalActualHours := tasks.foldl (fun s t => s + t.actualHours.getD 0) 0,
    completionRate :=
      if tasks.length > 0 then
        (((tasks.filter fun t => decide (t.status = TaskStatus.completed)).length : ℚ)
          / (tasks.length : ℚ)) * 100
      else 0 }

/-- The `agentStats` object computed by the stats route (lines 74–92). -/
structure AgentStats where
  total : Nat
  frontendCount : Nat
  backendCount : Nat
  fullstackCount : Nat
  devopsCount : Nat
  aiCount : Nat
  idleCount : Nat
  workingCount : Nat
  busyCount : Nat
  suspendedCount : Nat
  averageEfficiency : ℚ
  utilizationRate : ℚ
deriving DecidableEq, Repr

def agentStatsOf (agents : List Agent) : AgentStats :=
  { total := agents.length,
    frontendCount := (agents.filter fun a => decide (a.type = AgentType.frontend)).length,
    backendCount := (agents.filter fun a => decide (a.type = AgentType.backend)).length,
    fullstackCount := (agents.filter fun a => decide (a.type = AgentType.fullstack)).length,
    devopsCount := (agents.filter fun a => decide (a.type = AgentType.devops)).length,
    aiCount := (agents.filter fun a => decide (a.type = AgentType.ai)).length,
    idleCount := (agents.filter fun a => decide (a.status = AgentStatus.idle)).length,
    workingCount := (agents.filter fun a => decide (a.status = AgentStatus.working)).length,
    busyCount := (agents.filter fun a => decide (a.status = AgentStatus.busy)).length,
    suspendedCount := (agents.filter fun a => decide (a.status = AgentStatus.suspended)).length,
    averageEfficiency :=
      if agents.length > 0 then
        (agents.foldl (fun s a => s + a.efficiency) 0) / (agents.length : ℚ)
      else 0,
    utilizationRate :=
      if agents.length > 0 then
        (((agents.filter fun a =>
            decide (a.status = AgentStatus.working ∨ a.status = AgentStatus.busy)).length : ℚ)
          / (agents.length : ℚ)) * 100
      else 0 }

/-- Route `GET /api/projects/[id]/stats`: 404 when the project is absent;
otherwise the statistics are computed over the project's tasks and
agents. -/
def projectStatsGET (db : DB) (projectId : Nat) :
    Nat × Option (TaskStats × AgentStats) :=
  match db.projects.find? fun p => decide (p.id = projectId) with
  | none => (404, none)
  | some _ =>
    (200, some
      (taskStatsOf (db.tasks.filter fun t => decide (t.projectId = projectId)),
       agentStatsOf (db.agents.filter fun a => decide (a.projectId = projectId))))

/-!
## List endpoints (GET /api/tasks, /api/agents, /api/projects,
/api/planning-sessions)

Each list route parses `page` (default `'1'`) and `limit` (default `'50'`)
with `parseInt` and applies them unclamped via `.skip((page-1)*limit)`
and `.limit(limit)` on the sorted, filtered query, responding with
`{success, data, pagination: {page, limit, total, pages}}` where `total`
is `countDocuments(query)` and `pages = Math.ceil(total/limit)`.  `page`
and `limit` are modelled as the parsed natural numbers; Mongo treats
`.limit(0)` as "no limit", returning every remaining document
(`mongoLimit`), and at `limit = 0` the `pages` computation divides by
zero, which the JSON layer serializes as `null`.
-/

/-- Insertion step of the sort used to model Mongo's `.sort(...)`. -/
def insertSorted {α : Type} (le : α → α → Bool) (x : α) : List α → List α
  | [] => [x]
  | y :: ys => if le x y then x :: y :: ys else y :: insertSorted le x ys

/-- Stable insertion sort standing in for Mongo's `.sort(...)`. -/
def sortWith {α : Type} (le : α → α → Bool) : List α → List α
  | [] => []
  | x :: xs => insertSorted le x (sortWith le xs)

/-- Lexicographic comparison of character-code lists: BSON's UTF-8 string
order, used because the status/priority/type fields are stored as strings
and `.sort` compares those strings. -/
def lexLe : List Nat → List Nat → Bool
  | [], _ => true
  | _ :: _, [] => false
  | a :: as, b :: bs =>
    if a < b then true else if b < a then false else lexLe as bs

/-- Position of each stored priority string in BSON string order:
`'high' < 'low' < 'medium' < 'urgent'`. -/
def priorityLexRank : TaskPriority → Nat
  | TaskPriority.high => 0
  | TaskPriority.low => 1
  | TaskPriority.medium => 2
  | TaskPriority.urgent => 3

/-- Position of each stored agent-type string in BSON string order:
`'ai' < 'backend' < 'devops' < 'frontend' < 'fullstack'`. -/
def typeLexRank : AgentType → Nat
  | AgentType.ai => 0
  | AgentType.backend => 1
  | AgentType.devops => 2
  | AgentType.frontend => 3
  | AgentType.fullstack => 4

/-- Order `.sort({ priority: -1, createdAt: -1 })` on tasks. -/
def taskSortLe (a b : Task) : Bool :=
  if priorityLexRank a.priority = priorityLexRank b.priority then
    decide (b.createdAt ≤ a.createdAt)
  else
    decide (priorityLexRank b.priority < priorityLexRank a.priority)

/-- Order `.sort({ type: 1, name: 1 })` on agents. -/
def agentSortLe (a b : Agent) : Bool :=
  if typeLexRank a.type = typeLexRank b.type then
    lexLe (a.name.data.map Char.toNat) (b.name.data.map Char.toNat)
  else
    decide (typeLexRank a.type < typeLexRank b.type)

/-- Order `.sort({ createdAt: -1 })`. -/
def createdDesc {α : Type} (createdAt : α → Nat) (a b : α) : Bool :=
  decide (createdAt b ≤ createdAt a)

/-- The `pagination` object of a list response.  `pages` is optional
because at `limit = 0` the JS `Math.ceil(total / 0)` is `Infinity` (`NaN`
for `total = 0`), which the JSON response serializes as `null`. -/
structure Pagination where
  page : Nat
  limit : Nat
  total : Nat
  pages : Option Nat
deriving DecidableEq, Repr

/-- Value of `Math.ceil(total / limit)`: the ceiling for a positive
`limit`, and `null` (`Infinity`/`NaN` serialized) at `limit = 0`. -/
def pagesOf (total limit : Nat) : Option Nat :=
  if limit = 0 then none else some ((total + limit - 1) / limit)

/-- Mongo's `cursor.limit(limit)` applied to the remaining documents:
`limit(0)` means "no limit" and returns them all; a positive limit caps
the result. -/
def mongoLimit {α : Type} (limit : Nat) (l : List α) : List α :=
  if limit = 0 then l else l.take limit

/-- The `{success, data, pagination}` envelope of a list response. -/
structure ListResponse (α : Type) where
  success : Bool
  data : List α
  pagination : Pagination

/-- Query filters of `GET /api/tasks`. -/
structure TaskListQuery where
  projectId : Option Nat := none
  status : Option TaskStatus := none
  priority : Option TaskPriority := none
  agentId : Option Nat := none
deriving Repr

def taskMatches (q : TaskListQuery) (t : Task) : Bool :=
  (match q.projectId with | some p => decide (t.projectId = p) | none => true) &&
  (match q.status with | some s => decide (t.status = s) | none => true) &&
  (match q.priority with | some p => decide (t.priority = p) | none => true) &&
  (match q.agentId with | some a => decide (t.agentId = some a) | none => true)

/-- Route `GET /api/tasks` (`tasks/route.ts`, `GET`). -/
def tasksGET (db : DB) (q : TaskListQuery) (limit page : Nat) : ListResponse Task :=
  let matching := db.tasks.filter (taskMatches q)
  { success := true,
    data := mongoLimit limit ((sortWith taskSortLe matching).drop ((page - 1) * limit)),
    pagination := { page := page, limit := limit, total := matching.length,
                    pages := pagesOf matching.length limit } }

/-- Query filters of `GET /api/agents`. -/
structure AgentListQuery where
  projectId : Option Nat := none
  type : Option AgentType := none
  status : Option AgentStatus := none
deriving Repr

def agentMatches (q : AgentListQuery) (a : Agent) : Bool :=
  (match q.projectId with | some p => decide (a.projectId = p) | none => true) &&
  (match q.type with | some ty => decide (a.type = ty) | none => true) &&
  (match q.status with | some s => decide (a.status = s) | none => true)

/-- Route `GET /api/agents` (`agents/route.ts`, `GET`). -/
def agentsGET (db : DB) (q : AgentListQuery) (limit page : Nat) : ListResponse Agent :=
  let matching := db.agents.filter (agentMatches q)
  { success := true,
    data := mongoLimit limit ((sortWith agentSortLe matching).drop ((page - 1) * limit)),
    pagination := { page := page, limit := limit, total := matching.length,
                    pages := pagesOf matching.length limit } }

/-- Route `GET /api/projects` (`projects/route.ts`, `GET`); the only filter is
`status`. -/
def projectsGET (db : DB) (status? : Option ProjectStatus) (limit page : Nat) :
    ListResponse Project :=
  let matching := db.projects.filter fun p =>
    match status? with | some s => decide (p.status = s) | none => true
  { success := true,
    data := mongoLimit limit ((sortWith (createdDesc Project.createdAt) matching).drop
      ((page - 1) * limit)),
    pagination := { page := page, limit := limit, total := matching.length,
                    pages := pagesOf matching.length limit } }

/-- Query filters of `GET /api/planning-sessions`. -/
structure SessionListQuery where
  projectId : Option Nat := none
  status : Option SessionStatus := none
deriving Repr

def sessionMatches (q : SessionListQuery) (s : PlanningSession) : Bool :=
  (match q.projectId with | some p => decide (s.projectId = p) | none => true) &&
  (match q.status with | some st => decide (s.status = st) | none => true)

/-- Route `GET /api/planning-sessions` (planning-sessions route, `GET`). -/
def sessionsGET (db : DB) (q : SessionListQuery) (limit page : Nat) :
    ListResponse PlanningSession :=
  let matching := db.sessions.filter (sessionMatches q)
  { success := true,
    data := mongoLimit limit ((sortWith (createdDesc PlanningSession.createdAt) matching).drop
      ((page - 1) * limit)),
    pagination := { page := page, limit := limit, total := matching.length,
                    pages := pagesOf matching.length limit } }

/-- Helper `validatePaginationParams` (`lib/errorHandling`, lines 256–266): the
clamping helper — `page = max(1, parseInt || 1)`, `limit = min(100,
max(1, parseInt || 20))`, `skip = (page-1)*limit`.  Defined by the
repository but called by none of the list routes above.  Inputs model the
parsed integers (`none` for absent/NaN). -/
def validatePaginationParams (pageRaw limitRaw : Option Int) : Nat × Nat × Nat :=
  let page := max 1 (pageRaw.getD 1)
  let limit := min 100 (max 1 (limitRaw.getD 20))
  (page.toNat, limit.toNat, ((page - 1) * limit).toNat)

/-!
## Concrete data used by witnesses and counterexamples
-/

/-- A minimal pending task. -/
def sampleTask (i : Nat) : Task :=
  { id := i, title := "task", description := "desc", status := TaskStatus.pending,
    priority := TaskPriority.medium, agentId := none, projectId := 1,
    dependencies := [], estimatedHours := none, actualHours := some 0,
    createdAt := 0 }

/-- A minimal idle agent. -/
def sampleAgent (i : Nat) : Agent :=
  { id := i, name := "agent", type := AgentType.ai, status := AgentStatus.idle,
    currentTaskId := none, projectId := 1, capabilities := [], efficiency := 1 }

/-- Task 1 assigned to agent 10, in progress. -/
def taskAssigned : Task :=
  { sampleTask 1 with status := TaskStatus.inProgress, agentId := some 10 }

/-- Agent 10 working on task 1. -/
def agentWorking : Agent :=
  { sampleAgent 10 with status := AgentStatus.working, currentTaskId := some 1 }

/-- Database with an assigned pair (task 1 ↔ agent 10) and a free
task 2. -/
def dbWorking : DB :=
  { tasks := [taskAssigned, sampleTask 2], agents := [agentWorking],
    projects := [], sessions := [] }

/-- Database with an unassigned task 2 and an idle agent 20. -/
def dbIdlePair : DB :=
  { tasks := [sampleTask 2], agents := [sampleAgent 20], projects := [],
    sessions := [] }

/-- A busy agent 11. -/
def agentBusy : Agent := { sampleAgent 11 with status := AgentStatus.busy }

/-- Database with an unassigned task 2 and the busy agent 11. -/
def dbBusy : DB :=
  { tasks := [sampleTask 2], agents := [agentBusy], projects := [],
    sessions := [] }

/-!
## Theorems
-/

/-- C2: the claim says `Assign` succeeds only when the agent is `idle` and
fails whenever the agent is `working`.  The code only rejects `busy` and
`suspended`: starting from the consistent database `dbWorking` (agent 10
is `working` on task 1), assigning task 2 to agent 10 responds 200 and
mutates both entities, stealing the working agent and breaking the
mutual-consistency invariant.  This contradicts the Agent model's own
`isAvailable` virtual (`status === 'idle'`) and the route's "Check if
agent is available" guard, so the code, not the claim, is wrong. -/
theorem assign_working_agent_accepted :
    (assignPOST dbWorking 2 10).1 = 200 ∧
    consistent dbWorking ∧
    ¬ (assignPOST dbWorking 2 10).2 = dbWorking ∧
    ¬ consistent (assignPOST dbWorking 2 10).2 := by
  decide

/-- C3 counterexample: the rejected assignment (busy agent 11) responds
with HTTP 400, not with a 409 ConflictError as the claim states. -/
theorem assign_conflict_responds_400_not_409 :
    (assignPOST dbBusy 2 11).1 = 400 ∧
    ¬ (assignPOST dbBusy 2 11).1 = 409 ∧
    (assignPOST dbBusy 2 11).2 = dbBusy := by
  decide

/-- C3 (amended): when `Assign(T, A)` is called with `A.status` in
{busy, suspended} or with `T.agentId` already set, the operation fails
with a plain error response carrying HTTP status 400 (the repository's
`ConflictError`/409 class exists but is not used here), and no entity is
modified. -/
theorem assign_precondition_failure_400 (db : DB) (taskId agentId : Nat)
    (t : Task) (a : Agent)
    (ht : findTask db taskId = some t) (ha : findAgent db agentId = some a)
    (h : a.status = AgentStatus.busy ∨ a.status = AgentStatus.suspended ∨
      t.agentId.isSome = true) :
    assignPOST db taskId agentId = (400, db) := by
  unfold assignPOST
  rw [ht, ha]
  dsimp only
  rcases h with h | h | h
  · rw [if_pos (Or.inl h)]
  · rw [if_pos (Or.inr h)]
  · by_cases hb : a.status = AgentStatus.busy ∨ a.status = AgentStatus.suspended
    · rw [if_pos hb]
    · rw [if_neg hb, if_pos h]

/-- Witness for `assign_precondition_failure_400` at the busy agent 11. -/
theorem assign_precondition_failure_400_witness :
    assignPOST dbBusy 2 11 = (400, dbBusy) :=
  assign_precondition_failure_400 dbBusy 2 11 (sampleTask 2) agentBusy
    (by decide) (by decide) (Or.inl (by decide))

/-- C10: `POST /api/tasks` coerces a falsy `estimatedHours` (the value 0,
or an absent/null field) to `null` before saving, so a requested estimate
of 0 hours is stored as "no estimate"; on success the stored task is
exactly the built document. -/
theorem post_zero_estimated_hours_stored_null (db : DB) (b : TaskPostBody)
    (newId : Nat) (h : b.estimatedHours = some 0 ∨ b.estimatedHours = none) :
    (postedTask b newId).estimatedHours = none ∧
    ((tasksPOST db b newId).1 = 201 →
      (tasksPOST db b newId).2.tasks = db.tasks ++ [postedTask b newId]) := by
  constructor
  · unfold postedTask
    rcases h with h | h <;> simp [h]
  · unfold tasksPOST
    split
    · intro h201; cases h201
    · dsimp only
      split
      · intro h201; cases h201
      · split
        · intro h201; cases h201
        · intro _; rfl

/-- A POST body requesting a zero-hour estimate. -/
def zeroHoursBody : TaskPostBody :=
  { title := "a", description := "b", projectId := some 1,
    estimatedHours := some 0 }

/-- The empty database. -/
def dbEmpty : DB := { tasks := [], agents := [], projects := [], sessions := [] }

/-- Witness for `post_zero_estimated_hours_stored_null`: creating a task
with `estimatedHours = 0` stores `null`. -/
theorem post_zero_estimated_hours_stored_null_witness :
    (postedTask zeroHoursBody 3).estimatedHours = none ∧
    ((tasksPOST dbEmpty zeroHoursBody 3).1 = 201 →
      (tasksPOST dbEmpty zeroHoursBody 3).2.tasks
        = dbEmpty.tasks ++ [postedTask zeroHoursBody 3]) :=
  post_zero_estimated_hours_stored_null dbEmpty zeroHoursBody 3 (Or.inl rfl)

/-- C4: when the task's `agentId` equals the given agent id, unassignment
responds 200, every task with the given task id ends with `agentId = null`
and `status = pending`, and every agent with the given agent id ends with
`currentTaskId = null` and `status = idle`; when the pairing does not
match, the route responds 400 (the status the spec's taxonomy assigns to
`ValidationError`) and the database is unchanged. -/
theorem unassign_spec (db : DB) (taskId agentId : Nat) (t : Task)
    (ht : findTask db taskId = some t) :
    (t.agentId = some agentId →
      (unassignDELETE db taskId agentId).1 = 200 ∧
      (∀ u ∈ (unassignDELETE db taskId agentId).2.tasks, u.id = taskId →
        u.agentId = none ∧ u.status = TaskStatus.pending) ∧
      (∀ a ∈ (unassignDELETE db taskId agentId).2.agents, a.id = agentId →
        a.currentTaskId = none ∧ a.status = AgentStatus.idle)) ∧
    (¬ t.agentId = some agentId →
      unassignDELETE db taskId agentId = (400, db)) := by
  unfold unassignDELETE
  rw [ht]
  dsimp only
  constructor
  · intro hm
    rw [if_pos hm]
    dsimp only
    refine ⟨rfl, ?_, ?_⟩
    · intro u hu huid
      rw [List.mem_map] at hu
      obtain ⟨t0, ht0, heq⟩ := hu
      by_cases h0 : t0.id = taskId
      · rw [if_pos h0] at heq
        cases heq
        exact ⟨rfl, rfl⟩
      · rw [if_neg h0] at heq
        cases heq
        exact absurd huid h0
    · intro a hamem haid
      rw [List.mem_map] at hamem
      obtain ⟨a0, ha0, heq⟩ := hamem
      by_cases h0 : a0.id = agentId
      · rw [if_pos h0] at heq
        cases heq
        exact ⟨rfl, rfl⟩
      · rw [if_neg h0] at heq
        cases heq
        exact absurd haid h0
  · intro hm
    rw [if_neg hm]

/-- Witness for `unassign_spec`: in `dbWorking`, unassigning task 1 from
its agent 10 responds 200, and unassigning it from the wrong agent 99
responds 400 leaving the database unchanged. -/
theorem unassign_spec_witness :
    (unassignDELETE dbWorking 1 10).1 = 200 ∧
    unassignDELETE dbWorking 1 99 = (400, dbWorking) := by
  constructor
  · exact ((unassign_spec dbWorking 1 10 taskAssigned (by decide)).1 (by decide)).1
  · exact (unassign_spec dbWorking 1 99 taskAssigned (by decide)).2 (by decide)

/-- C5: deleting agent A responds 200; every task that referenced A is
reset to `{agentId: null, status: pending}`, tasks that did not reference
A are untouched, afterwards no task references A, and no agent with A's
id remains. -/
theorem agent_delete_resets_tasks (db : DB) (agentId : Nat) (a : Agent)
    (ha : findAgent db agentId = some a) :
    (agentDELETE db agentId).1 = 200 ∧
    (∀ t ∈ (agentDELETE db agentId).2.tasks, ¬ t.agentId = some agentId) ∧
    (∀ t ∈ db.tasks, t.agentId = some agentId →
      { t with agentId := none, status := TaskStatus.pending }
        ∈ (agentDELETE db agentId).2.tasks) ∧
    (∀ t ∈ db.tasks, ¬ t.agentId = some agentId →
      t ∈ (agentDELETE db agentId).2.tasks) ∧
    (∀ a2 ∈ (agentDELETE db agentId).2.agents, ¬ a2.id = agentId) := by
  unfold agentDELETE
  rw [ha]
  dsimp only
  refine ⟨rfl, ?_, ?_, ?_, ?_⟩
  · intro t htmem
    rw [List.mem_map] at htmem
    obtain ⟨t0, ht0, heq⟩ := htmem
    by_cases h0 : t0.agentId = some agentId
    · rw [if_pos h0] at heq
      cases heq
      exact fun hcon => Option.noConfusion hcon
    · rw [if_neg h0] at heq
      cases heq
      exact h0
  · intro t ht0 h0
    rw [List.mem_map]
    exact ⟨t, ht0, by rw [if_pos h0]⟩
  · intro t ht0 h0
    rw [List.mem_map]
    exact ⟨t, ht0, by rw [if_neg h0]⟩
  · intro a2 ha2
    rw [List.mem_filter] at ha2
    exact of_decide_eq_true ha2.2

/-- Witness for `agent_delete_resets_tasks`: deleting the working agent 10
of `dbWorking` responds 200 and afterwards no task references agent 10. -/
theorem agent_delete_resets_tasks_witness :
    (agentDELETE dbWorking 10).1 = 200 ∧
    (∀ t ∈ (agentDELETE dbWorking 10).2.tasks, ¬ t.agentId = some 10) := by
  have h := agent_delete_resets_tasks dbWorking 10 agentWorking (by decide)
  exact ⟨h.1, h.2.1⟩

/-- C6: deleting task T responds 200; afterwards no remaining task has
T's id or lists it among its dependencies; if T referenced an agent, every
agent with that id is reset to `currentTaskId = null`, `status = idle`,
and if T was unassigned the agents collection is untouched. -/
theorem task_delete_prunes_and_resets (db : DB) (taskId : Nat) (t : Task)
    (ht : findTask db taskId = some t) :
    (taskDELETE db taskId).1 = 200 ∧
    (∀ u ∈ (taskDELETE db taskId).2.tasks,
      ¬ u.id = taskId ∧ ¬ taskId ∈ u.dependencies) ∧
    (∀ aid, t.agentId = some aid →
      ∀ a ∈ (taskDELETE db taskId).2.agents, a.id = aid →
        a.currentTaskId = none ∧ a.status = AgentStatus.idle) ∧
    (t.agentId = none → (taskDELETE db taskId).2.agents = db.agents) := by
  unfold taskDELETE
  rw [ht]
  dsimp only
  refine ⟨rfl, ?_, ?_, ?_⟩
  · intro u hu
    rw [List.mem_filter] at hu
    obtain ⟨humap, hupred⟩ := hu
    refine ⟨of_decide_eq_true hupred, ?_⟩
    rw [List.mem_map] at humap
    obtain ⟨t0, ht0, heq⟩ := humap
    by_cases h0 : taskId ∈ t0.dependencies
    · rw [if_pos h0] at heq
      cases heq
      intro hmem
      rw [List.mem_filter] at hmem
      exact (of_decide_eq_true hmem.2) rfl
    · rw [if_neg h0] at heq
      cases heq
      exact h0
  · intro aid haid a hamem haid2
    rw [haid] at hamem
    dsimp only at hamem
    rw [List.mem_map] at hamem
    obtain ⟨a0, ha0, heq⟩ := hamem
    by_cases h0 : a0.id = aid
    · rw [if_pos h0] at heq
      cases heq
      exact ⟨rfl, rfl⟩
    · rw [if_neg h0] at heq
      cases heq
      exact absurd haid2 h0
  · intro hnone
    rw [hnone]

/-- Database where task 7 depends on the assigned task 1 (served by the
working agent 10). -/
def dbDeps : DB :=
  { tasks := [taskAssigned, { sampleTask 7 with dependencies := [1, 3] }],
    agents := [agentWorking], projects := [], sessions := [] }

/-- Witness for `task_delete_prunes_and_resets`: deleting task 1 of
`dbDeps` responds 200, prunes dependency 1 everywhere, and resets
agent 10. -/
theorem task_delete_prunes_and_resets_witness :
    (taskDELETE dbDeps 1).1 = 200 ∧
    (∀ u ∈ (taskDELETE dbDeps 1).2.tasks,
      ¬ u.id = 1 ∧ ¬ (1 : Nat) ∈ u.dependencies) ∧
    (∀ a ∈ (taskDELETE dbDeps 1).2.agents, a.id = 10 →
      a.currentTaskId = none ∧ a.status = AgentStatus.idle) := by
  have h := task_delete_prunes_and_resets dbDeps 1 taskAssigned (by decide)
  exact ⟨h.1, h.2.1, h.2.2.1 10 (by decide)⟩

/-- Folding `+ efficiency` over agents computes the sum of the
efficiencies. -/
theorem foldl_add_efficiency (agents : List Agent) (init : ℚ) :
    agents.foldl (fun s a => s + a.efficiency) init
      = init + (agents.map Agent.efficiency).sum := by
  induction agents generalizing init with
  | nil => simp
  | cons a l ih => simp [ih, add_assoc]

/-- C7: the statistics computation satisfies the claimed boundary laws —
`completionRate` is 0 for an empty task list and 100 when the (nonempty)
task list is all completed, and `averageEfficiency` is 0 for an empty
agent list and otherwise the mean of the efficiency values. -/
theorem stats_boundary_values (tasks : List Task) (agents : List Agent) :
    (tasks = [] → (taskStatsOf tasks).completionRate = 0) ∧
    (¬ tasks = [] → (∀ t ∈ tasks, t.status = TaskStatus.completed) →
      (taskStatsOf tasks).completionRate = 100) ∧
    (agents = [] → (agentStatsOf agents).averageEfficiency = 0) ∧
    (¬ agents = [] → (agentStatsOf agents).averageEfficiency
      = (agents.map Agent.efficiency).sum / (agents.length : ℚ)) := by
  refine ⟨?_, ?_, ?_, ?_⟩
  · intro h
    subst h
    rfl
  · intro hne hall
    unfold taskStatsOf
    dsimp only
    have hlen : 0 < tasks.length := List.length_pos.mpr hne
    rw [if_pos hlen]
    have hfilter :
        tasks.filter (fun t => decide (t.status = TaskStatus.completed)) = tasks :=
      List.filter_eq_self.mpr fun t htmem => decide_eq_true (hall t htmem)
    rw [hfilter, div_self (Nat.cast_ne_zero.mpr hlen.ne'), one_mul]
  · intro h
    subst h
    rfl
  · intro hne
    unfold agentStatsOf
    dsimp only
    rw [if_pos (List.length_pos.mpr hne), foldl_add_efficiency, zero_add]

/-- Witness for `stats_boundary_values` at empty and singleton
collections. -/
theorem stats_boundary_values_witness :
    (taskStatsOf []).completionRate = 0 ∧
    (taskStatsOf [{ sampleTask 1 with
      status := TaskStatus.completed }]).completionRate = 100 ∧
    (agentStatsOf []).averageEfficiency = 0 ∧
    (agentStatsOf [sampleAgent 10]).averageEfficiency
      = ([sampleAgent 10].map Agent.efficiency).sum
        / (([sampleAgent 10] : List Agent).length : ℚ) :=
  ⟨(stats_boundary_values [] []).1 rfl,
   (stats_boundary_values [{ sampleTask 1 with
       status := TaskStatus.completed }] []).2.1
     (List.cons_ne_nil _ _) (by decide),
   (stats_boundary_values [] []).2.2.1 rfl,
   (stats_boundary_values [] [sampleAgent 10]).2.2.2 (List.cons_ne_nil _ _)⟩

/-- Database containing task 5 of project 2. -/
def dbOtherProject : DB :=
  { tasks := [{ sampleTask 5 with projectId := 2 }], agents := [],
    projects := [], sessions := [] }

/-- POST body creating a project-1 task that depends on task 5. -/
def crossDepBody : TaskPostBody :=
  { title := "a", description := "b", projectId := some 1,
    dependencies := some [5] }

/-- C8 counterexample: creating a task in project 1 whose dependency list
references task 5 of project 2 succeeds (201) — no route or schema rule
checks that dependencies stay within the task's project — so afterwards a
task's dependency resolves to a task of a different project, refuting the
claimed invariant. -/
theorem cross_project_dependency_accepted :
    depsSameProject dbOtherProject ∧
    (tasksPOST dbOtherProject crossDepBody 9).1 = 201 ∧
    ¬ depsSameProject (tasksPOST dbOtherProject crossDepBody 9).2 := by
  decide

/-- C8 (amended): the `pre('save')` hook does keep `POST /api/tasks` from
ever inserting a task whose dependency list contains its own id, but the
same-project half of the claim is unenforced (see the counterexample),
and `PUT` updates bypass the hook entirely. -/
theorem tasksPOST_preserves_noSelfDep (db : DB) (b : TaskPostBody)
    (newId : Nat) (h : noSelfDep db) : noSelfDep (tasksPOST db b newId).2 := by
  unfold tasksPOST
  split
  · exact h
  · dsimp only
    split
    · exact h
    · split
      · exact h
      · next hdep =>
        intro t htmem
        rw [List.mem_append] at htmem
        rcases htmem with hold | hnew
        · exact h t hold
        · rw [List.mem_singleton] at hnew
          subst hnew
          exact hdep

/-- Witness for `tasksPOST_preserves_noSelfDep` at the cross-project
creation. -/
theorem tasksPOST_preserves_noSelfDep_witness :
    noSelfDep (tasksPOST dbOtherProject crossDepBody 9).2 :=
  tasksPOST_preserves_noSelfDep dbOtherProject crossDepBody 9 (by decide)

/-- Database of 101 pending tasks of one project. -/
def db101 : DB :=
  { tasks := (List.range 101).map sampleTask, agents := [], projects := [],
    sessions := [] }

/-- C9 counterexample: `GET /api/tasks?limit=150` over 101 stored tasks
returns all 101 items — the parsed `limit` is applied unclamped, so a
response can exceed the claimed bound of 100 items. -/
theorem tasksGET_can_exceed_100_items :
    (tasksGET db101 {} 150 1).data.length = 101 ∧
    100 < (tasksGET db101 {} 150 1).data.length := by
  decide

/-- Inserting one element grows the length by one. -/
theorem length_insertSorted {α : Type} (le : α → α → Bool) (x : α)
    (l : List α) : (insertSorted le x l).length = l.length + 1 := by
  induction l with
  | nil => rfl
  | cons y ys ih =>
    unfold insertSorted
    by_cases h : le x y
    · rw [if_pos h]
      rfl
    · rw [if_neg h, List.length_cons, List.length_cons, ih]

/-- The modelled sort is a length-preserving rearrangement. -/
theorem length_sortWith {α : Type} (le : α → α → Bool) (l : List α) :
    (sortWith le l).length = l.length := by
  induction l with
  | nil => rfl
  | cons x xs ih =>
    unfold sortWith
    rw [length_insertSorted, ih]
    rfl

/-- A positive limit caps the number of returned documents. -/
theorem length_mongoLimit_le {α : Type} (limit : Nat) (l : List α)
    (h : 0 < limit) : (mongoLimit limit l).length ≤ limit := by
  unfold mongoLimit
  rw [if_neg (Nat.pos_iff_ne_zero.mp h)]
  exact List.length_take_le _ _

/-- Limit 0 is Mongo's "no limit". -/
theorem mongoLimit_zero {α : Type} (l : List α) : mongoLimit 0 l = l := by
  unfold mongoLimit
  rw [if_pos rfl]

/-- C9 (amended): every list endpoint accepts `page`/`limit` and returns
the `{success, data, pagination{page, limit, total, pages}}` envelope with
`total` the number of matching documents and `pages = ⌈total/limit⌉`
(`null` at `limit = 0`); a positive `limit` bounds the returned items by
`limit` — not by 100, since no list route clamps the parsed value (only
the unused helper `validatePaginationParams` bounds it by 100) — and
`limit = 0` is Mongo's "no limit": every matching document is returned. -/
theorem list_endpoints_envelope (db : DB) (tq : TaskListQuery)
    (aq : AgentListQuery) (ps : Option ProjectStatus) (sq : SessionListQuery)
    (limit page : Nat) :
    ((tasksGET db tq limit page).success = true ∧
      (tasksGET db tq limit page).pagination =
        { page := page, limit := limit,
          total := (db.tasks.filter (taskMatches tq)).length,
          pages := pagesOf (db.tasks.filter (taskMatches tq)).length limit } ∧
      (0 < limit → (tasksGET db tq limit page).data.length ≤ limit) ∧
      (limit = 0 → (tasksGET db tq limit page).data.length
        = (db.tasks.filter (taskMatches tq)).length)) ∧
    ((agentsGET db aq limit page).success = true ∧
      (agentsGET db aq limit page).pagination =
        { page := page, limit := limit,
          total := (db.agents.filter (agentMatches aq)).length,
          pages := pagesOf (db.agents.filter (agentMatches aq)).length limit } ∧
      (0 < limit → (agentsGET db aq limit page).data.length ≤ limit) ∧
      (limit = 0 → (agentsGET db aq limit page).data.length
        = (db.agents.filter (agentMatches aq)).length)) ∧
    ((projectsGET db ps limit page).success = true ∧
      (projectsGET db ps limit page).pagination.limit = limit ∧
      (0 < limit → (projectsGET db ps limit page).data.length ≤ limit) ∧
      (limit = 0 → (projectsGET db ps limit page).data.length
        = (projectsGET db ps limit page).pagination.total)) ∧
    ((sessionsGET db sq limit page).success = true ∧
      (sessionsGET db sq limit page).pagination.limit = limit ∧
      (0 < limit → (sessionsGET db sq limit page).data.length ≤ limit) ∧
      (limit = 0 → (sessionsGET db sq limit page).data.length
        = (sessionsGET db sq limit page).pagination.total)) ∧
    (∀ pr lr : Option Int, (validatePaginationParams pr lr).2.1 ≤ 100) := by
  refine ⟨⟨rfl, rfl, fun h => length_mongoLimit_le _ _ h, ?_⟩,
    ⟨rfl, rfl, fun h => length_mongoLimit_le _ _ h, ?_⟩,
    ⟨rfl, rfl, fun h => length_mongoLimit_le _ _ h, ?_⟩,
    ⟨rfl, rfl, fun h => length_mongoLimit_le _ _ h, ?_⟩, ?_⟩
  · intro h0
    subst h0
    unfold tasksGET
    dsimp only
    rw [Nat.mul_zero, List.drop_zero, mongoLimit_zero, length_sortWith]
  · intro h0
    subst h0
    unfold agentsGET
    dsimp only
    rw [Nat.mul_zero, List.drop_zero, mongoLimit_zero, length_sortWith]
  · intro h0
    subst h0
    unfold projectsGET
    dsimp only
    rw [Nat.mul_zero, List.drop_zero, mongoLimit_zero, length_sortWith]
  · intro h0
    subst h0
    unfold sessionsGET
    dsimp only
    rw [Nat.mul_zero, List.drop_zero, mongoLimit_zero, length_sortWith]
  · intro pr lr
    unfold validatePaginationParams
    dsimp only
    omega

/-- Witness for `list_endpoints_envelope` on `db101`, at the positive
limit 150 and at Mongo's no-limit value 0 (which returns all 101
matching tasks). -/
theorem list_endpoints_envelope_witness :
    (tasksGET db101 {} 150 1).data.length ≤ 150 ∧
    (tasksGET db101 {} 0 1).data.length = 101 ∧
    (agentsGET db101 {} 150 1).data.length ≤ 150 ∧
    (agentsGET db101 {} 0 1).data.length = 0 ∧
    (projectsGET db101 none 150 1).data.length ≤ 150 ∧
    (projectsGET db101 none 0 1).data.length = 0 ∧
    (sessionsGET db101 {} 150 1).data.length ≤ 150 ∧
    (sessionsGET db101 {} 0 1).data.length = 0 := by
  have hpos := list_endpoints_envelope db101 {} {} none {} 150 1
  have hz := list_endpoints_envelope db101 {} {} none {} 0 1
  exact ⟨hpos.1.2.2.1 (by decide), (hz.1.2.2.2 rfl).trans (by decide),
    hpos.2.1.2.2.1 (by decide), (hz.2.1.2.2.2 rfl).trans (by decide),
    hpos.2.2.1.2.2.1 (by decide), (hz.2.2.1.2.2.2 rfl).trans (by decide),
    hpos.2.2.2.1.2.2.1 (by decide), (hz.2.2.2.1.2.2.2 rfl).trans (by decide)⟩

/-- Distinct agents of an id-unique collection have distinct ids. -/
theorem id_inj_agents {db : DB} (hwf : wfIds db) {x y : Agent}
    (hx : x ∈ db.agents) (hy : y ∈ db.agents) (h : x.id = y.id) : x = y :=
  List.inj_on_of_nodup_map hwf.2 hx hy h

/-- Assignment preserves the consistency invariant when the target agent
is idle. -/
theorem assign_preserves_consistent (db : DB) (hwf : wfIds db)
    (hc : consistent db) (taskId agentId : Nat) (a : Agent)
    (ha : findAgent db agentId = some a)
    (hidle : a.status = AgentStatus.idle) :
    consistent (assignPOST db taskId agentId).2 := by
  obtain ⟨hamem, haid⟩ := findAgent_mem ha
  unfold assignPOST
  cases hft : findTask db taskId with
  | none => exact hc
  | some task =>
    rw [ha]
    dsimp only
    have hns : ¬ (a.status = AgentStatus.busy ∨
        a.status = AgentStatus.suspended) := by
      rw [hidle]
      rintro (hx | hx) <;> exact AgentStatus.noConfusion hx
    rw [if_neg hns]
    by_cases hassigned : task.agentId.isSome = true
    · rw [if_pos hassigned]
      exact hc
    · rw [if_neg hassigned]
      unfold consistent taskAgentOk
      dsimp only
      intro t' ht' aid haid'
      rw [List.mem_map] at ht'
      obtain ⟨t0, ht0, heq⟩ := ht'
      by_cases h0 : t0.id = taskId
      · rw [if_pos h0] at heq
        cases heq
        have h2 : some agentId = some aid := haid'
        injection h2 with h3
        subst h3
        refine ⟨{ a with currentTaskId := some taskId, status := AgentStatus.working },
          ?_, haid, ?_, rfl⟩
        · rw [List.mem_map]
          exact ⟨a, hamem, by rw [if_pos haid]⟩
        · exact congrArg some h0.symm
      · rw [if_neg h0] at heq
        cases heq
        obtain ⟨a', ha'mem, ha'id, ha'cur, ha'st⟩ := hc t' ht0 aid haid'
        have hne : ¬ a'.id = agentId := by
          intro hcontra
          have heqa : a' = a :=
            id_inj_agents hwf ha'mem hamem (hcontra.trans haid.symm)
          rw [heqa, hidle] at ha'st
          exact AgentStatus.noConfusion ha'st
        refine ⟨a', ?_, ha'id, ha'cur, ha'st⟩
        rw [List.mem_map]
        exact ⟨a', ha'mem, by rw [if_neg hne]⟩

/-- Unassignment preserves the consistency invariant. -/
theorem unassign_preserves_consistent (db : DB) (hwf : wfIds db)
    (hc : consistent db) (taskId agentId : Nat) :
    consistent (unassignDELETE db taskId agentId).2 := by
  unfold unassignDELETE
  cases hft : findTask db taskId with
  | none => exact hc
  | some task =>
    dsimp only
    by_cases hm : task.agentId = some agentId
    · rw [if_pos hm]
      obtain ⟨htmem, htid⟩ := findTask_mem hft
      obtain ⟨aT, haTmem, haTid, haTcur, haTst⟩ := hc task htmem agentId hm
      unfold consistent taskAgentOk
      dsimp only
      intro t' ht' aid haid'
      rw [List.mem_map] at ht'
      obtain ⟨t0, ht0, heq⟩ := ht'
      by_cases h0 : t0.id = taskId
      · rw [if_pos h0] at heq
        cases heq
        exact absurd haid' fun hcon => Option.noConfusion hcon
      · rw [if_neg h0] at heq
        cases heq
        obtain ⟨a', ha'mem, ha'id, ha'cur, ha'st⟩ := hc t' ht0 aid haid'
        have hne : ¬ a'.id = agentId := by
          intro hcontra
          have heqa : a' = aT :=
            id_inj_agents hwf ha'mem haTmem (hcontra.trans haTid.symm)
          rw [heqa, haTcur] at ha'cur
          injection ha'cur with hid2
          exact h0 (hid2.symm.trans htid)
        refine ⟨a', ?_, ha'id, ha'cur, ha'st⟩
        rw [List.mem_map]
        exact ⟨a', ha'mem, by rw [if_neg hne]⟩
    · rw [if_neg hm]
      exact hc

/-- Task deletion preserves the consistency invariant. -/
theorem taskDELETE_preserves_consistent (db : DB) (hwf : wfIds db)
    (hc : consistent db) (taskId : Nat) :
    consistent (taskDELETE db taskId).2 := by
  unfold taskDELETE
  cases hft : findTask db taskId with
  | none => exact hc
  | some task =>
    obtain ⟨htmem, htid⟩ := findTask_mem hft
    dsimp only
    unfold consistent taskAgentOk
    dsimp only
    intro t' ht' aid haid'
    rw [List.mem_filter] at ht'
    obtain ⟨htmap, htpred⟩ := ht'
    have htne : ¬ t'.id = taskId := of_decide_eq_true htpred
    rw [List.mem_map] at htmap
    obtain ⟨t0, ht0, heq⟩ := htmap
    have hid : t'.id = t0.id := by
      by_cases h0 : taskId ∈ t0.dependencies
      · rw [if_pos h0] at heq
        cases heq
        rfl
      · rw [if_neg h0] at heq
        cases heq
        rfl
    have hag : t'.agentId = t0.agentId := by
      by_cases h0 : taskId ∈ t0.dependencies
      · rw [if_pos h0] at heq
        cases heq
        rfl
      · rw [if_neg h0] at heq
        cases heq
        rfl
    obtain ⟨a', ha'mem, ha'id, ha'cur, ha'st⟩ :=
      hc t0 ht0 aid (hag.symm.trans haid')
    cases hta : task.agentId with
    | none =>
      dsimp only
      refine ⟨a', ha'mem, ha'id, ?_, ha'st⟩
      rw [hid]
      exact ha'cur
    | some aid0 =>
      dsimp only
      have hne : ¬ a'.id = aid0 := by
        intro hcontra
        obtain ⟨aT, haTmem, haTid, haTcur, haTst⟩ := hc task htmem aid0 hta
        have heqa : a' = aT :=
          id_inj_agents hwf ha'mem haTmem (hcontra.trans haTid.symm)
        rw [heqa, haTcur] at ha'cur
        injection ha'cur with hid2
        exact htne (hid.trans (hid2.symm.trans htid))
      refine ⟨a', ?_, ha'id, ?_, ha'st⟩
      · rw [List.mem_map]
        exact ⟨a', ha'mem, by rw [if_neg hne]⟩
      · rw [hid]
        exact ha'cur

/-- Agent deletion preserves the consistency invariant. -/
theorem agentDELETE_preserves_consistent (db : DB) (hc : consistent db)
    (agentId : Nat) : consistent (agentDELETE db agentId).2 := by
  unfold agentDELETE
  cases hfa : findAgent db agentId with
  | none => exact hc
  | some a0 =>
    dsimp only
    unfold consistent taskAgentOk
    dsimp only
    intro t' ht' aid haid'
    rw [List.mem_map] at ht'
    obtain ⟨t0, ht0, heq⟩ := ht'
    by_cases h0 : t0.agentId = some agentId
    · rw [if_pos h0] at heq
      cases heq
      exact absurd haid' fun hcon => Option.noConfusion hcon
    · rw [if_neg h0] at heq
      cases heq
      obtain ⟨a', ha'mem, ha'id, ha'cur, ha'st⟩ := hc t' ht0 aid haid'
      have hne : ¬ a'.id = agentId := by
        intro hcontra
        apply h0
        rw [haid']
        rw [ha'id] at hcontra
        rw [hcontra]
      refine ⟨a', ?_, ha'id, ha'cur, ha'st⟩
      rw [List.mem_filter]
      exact ⟨ha'mem, decide_eq_true hne⟩

/-- A PUT body that only sets `agentId`. -/
def putAgentOnly : TaskPutBody := { agentId := some (some 20) }

/-- C1 counterexample: starting from the consistent database `dbIdlePair`,
`PUT /api/tasks/2` with body `{agentId: 20}` responds 200 and sets task
2's agent reference, but — because the updated task's status is not
`in-progress` — agent 20 keeps `currentTaskId = null` and `status =
idle`, so the invariant does not hold after this task-update operation. -/
theorem taskPUT_breaks_consistency :
    consistent dbIdlePair ∧
    (taskPUT dbIdlePair 2 putAgentOnly).1 = 200 ∧
    ¬ consistent (taskPUT dbIdlePair 2 putAgentOnly).2 := by
  decide

/-- C1 (amended): in a database with unique ids satisfying the invariant,
the invariant still holds after an assignment whose target agent is idle,
after every unassignment, after every task deletion, and after every
agent deletion; the task-update operation (`PUT /api/tasks/[id]`) does
not preserve it (see the counterexample), and neither does assignment to
a `working` agent. -/
theorem consistency_preserved_by_routes (db : DB) (hwf : wfIds db)
    (hc : consistent db) :
    (∀ taskId agentId a, findAgent db agentId = some a →
      a.status = AgentStatus.idle →
      consistent (assignPOST db taskId agentId).2) ∧
    (∀ taskId agentId, consistent (unassignDELETE db taskId agentId).2) ∧
    (∀ taskId, consistent (taskDELETE db taskId).2) ∧
    (∀ agentId, consistent (agentDELETE db agentId).2) :=
  ⟨fun taskId agentId a ha hidle =>
      assign_preserves_consistent db hwf hc taskId agentId a ha hidle,
   fun taskId agentId => unassign_preserves_consistent db hwf hc taskId agentId,
   fun taskId => taskDELETE_preserves_consistent db hwf hc taskId,
   fun agentId => agentDELETE_preserves_consistent db hc agentId⟩

/-- Witness for `consistency_preserved_by_routes` on `dbIdlePair`. -/
theorem consistency_preserved_by_routes_witness :
    consistent (assignPOST dbIdlePair 2 20).2 ∧
    consistent (unassignDELETE dbIdlePair 2 20).2 ∧
    consistent (taskDELETE dbIdlePair 2).2 ∧
    consistent (agentDELETE dbIdlePair 20).2 := by
  have h := consistency_preserved_by_routes dbIdlePair (by decide) (by decide)
  exact ⟨h.1 2 20 (sampleAgent 20) (by decide) (by decide), h.2.1 2 20,
    h.2.2.1 2, h.2.2.2 20⟩

end TracerWeb
